import Mathlib

/-!
# Verification of the report-intake pipeline

Shallow embedding of the repository's report-intake code:

* the client upload modal (`UploadModal`): its transient state and the event
  handlers `handleFileSelect`, `handleCenterChange`, `handleAnalyze`,
  `handleBackFromLocation`, together with the media-normalization helpers
  `isHeicFile` and `convertHeicToJpeg`;
* the server route handlers `GET /api/reports` and `POST /api/reports`,
  with the MongoDB store modelled as an explicit list of documents and the
  opaque `$geoIntersects` predicate as a parameter.

JavaScript strings are embedded as Lean `String`s (with list-of-characters
based helpers mirroring `toLowerCase` / `endsWith` / `startsWith` /
`replace`), JS numbers carried through untouched by the modelled code paths
(coordinates, confidence) are embedded as `Int`, timestamps and sizes as
`Nat`, and `null`-able fields as `Option`.
-/

namespace Intake

/-! ## Strings: character-list models of the JS string operations used -/

/-- Model of `s.toLowerCase()`: lower-case every character. -/
def lowerStr (s : String) : String :=
  String.mk (s.data.map Char.toLower)

/-- Model of `s.endsWith(suf)`: `suf` is a suffix of `s` (checked on reversed
character lists). -/
def strEnds (s suf : String) : Bool :=
  suf.data.reverse.isPrefixOf s.data.reverse

/-- Model of `s.startsWith(pre)`. -/
def strStarts (s p : String) : Bool :=
  p.data.isPrefixOf s.data

/-! ## Data model -/

/-- Type `Coordinates` from `@/lib/types`: `{lat, lng}`.  The modelled code never
computes with the numbers, so they are embedded as integers. -/
structure Coordinates where
  lat : Int
  lng : Int
deriving DecidableEq, Repr

/-- Type `AnalyzeResponse` from `@/lib/types`: `{category, severity, summary,
confidence}`.  `confidence` is carried through opaquely (embedded as `Int`,
e.g. in units of 1/100). -/
structure AnalyzeResponse where
  category : String
  severity : String
  summary : String
  confidence : Int
deriving DecidableEq, Repr

/-- A browser `File`: name, declared MIME type, byte size. -/
structure JsFile where
  name : String
  mimeType : String
  size : Nat
deriving DecidableEq, Repr

/-- A `Blob` produced by the external `heic2any` converter: an opaque
content handle plus its byte size. -/
structure Blob where
  id : Nat
  size : Nat
deriving DecidableEq, Repr

/-- Result shape of `heic2any`: it may return a single `Blob` or an array of `Blob`s. -/
inductive HeicResult where
  | single (b : Blob)
  | multiple (bs : List Blob)
deriving DecidableEq, Repr

/-! ## Media normalization (`isHeicFile`, `convertHeicToJpeg`) -/

/-- Source function `isHeicFile` (UploadModal): the file is HEIC when its lower-cased name
ends in `.heic`/`.heif` or its lower-cased MIME type is
`image/heic`/`image/heif` — either signal suffices. -/
def isHeicFile (f : JsFile) : Bool :=
  let name := lowerStr f.name
  let ty := lowerStr f.mimeType
  strEnds name ".heic" || strEnds name ".heif" ||
    ty == "image/heic" || ty == "image/heif"

/-- The filename rewrite `file.name.replace(/\.(heic|heif)$/i, '.jpg')`:
when the name ends (case-insensitively) in `.heic` or `.heif`, the final
five characters are replaced by `.jpg`; otherwise the name is unchanged. -/
def replaceHeicExt (name : String) : String :=
  if strEnds (lowerStr name) ".heic" || strEnds (lowerStr name) ".heif" then
    String.mk (name.data.take (name.data.length - 5) ++ ".jpg".data)
  else
    name

/-- The blob `convertHeicToJpeg` builds the new `File` from:
`Array.isArray(convertedBlob) ? convertedBlob[0] : convertedBlob`.
Indexing an empty array yields no usable blob (`undefined`), embedded as
`none`. -/
def heicResultBlob : HeicResult → Option Blob
  | .single b => some b
  | .multiple bs => bs.head?

/-- Source function `convertHeicToJpeg` (UploadModal), given the external converter's
result: pick the blob (first element for an array result) and build a
`File` named with `.jpg` substituted for the proprietary extension and MIME
type `image/jpeg`.  Returns the blob (used for `URL.createObjectURL`)
together with the new file; `none` when the converter returned an empty
array. -/
def convertHeicToJpeg (f : JsFile) (res : HeicResult) : Option (Blob × JsFile) :=
  (heicResultBlob res).map fun b =>
    (b, { name := replaceHeicExt f.name, mimeType := "image/jpeg", size := b.size })

/-! ## Client intake state machine (`UploadModal`) -/

/-- Type `UploadStep`: the modal's step values. -/
inductive UploadStep where
  | select
  | converting
  | location
  | analyzing
  | review
deriving DecidableEq, Repr

/-- Values of `geoMethod`: `'auto' | 'manual'`. -/
inductive GeoMethod where
  | auto
  | manual
deriving DecidableEq, Repr

/-- The modal's React state (`useState` hooks of `UploadModal`), plus a
`revoked` trace recording every object URL passed to
`URL.revokeObjectURL` — the model of the browser's handle-release effect. -/
structure ModalState where
  step : UploadStep
  file : Option JsFile
  mediaUrl : Option String
  coordinates : Option Coordinates
  geoMethod : GeoMethod
  geoError : Option String
  analysis : Option AnalyzeResponse
  isAnalyzing : Bool
  error : Option String
  revoked : List String
deriving DecidableEq, Repr

/-- The modal's initial state (the hooks' initial values). -/
def initialModalState : ModalState where
  step := .select
  file := none
  mediaUrl := none
  coordinates := none
  geoMethod := .auto
  geoError := none
  analysis := none
  isAnalyzing := false
  error := none
  revoked := []

/-- The outcome of an external asynchronous call (`heic2any`,
`getCurrentPosition`, `fetch('/api/analyze')`): success with a value, or
any failure (exception, network error, non-2xx response). -/
inductive Outcome (α : Type) where
  | ok (a : α)
  | failed
deriving DecidableEq, Repr

/-- One media-kind check of `handleFileSelect`:
`selectedFile.type.startsWith('image/') || isHeic`. -/
def selectedIsImage (f : JsFile) : Bool :=
  strStarts f.mimeType "image/" || isHeicFile f

/-- Check `selectedFile.type.startsWith('video/')`. -/
def selectedIsVideo (f : JsFile) : Bool :=
  strStarts f.mimeType "video/"

/-- Handler `handleFileSelect` (UploadModal), as a state transformer.  External
effects are passed in: `conv` is the `heic2any` outcome (consulted only on
the HEIC path), `freshUrl` the object URL `URL.createObjectURL` would
return for the processed content, and `geo` the `getCurrentPosition`
outcome.  Mirrors the source order: kind check, size check, clear error,
optional HEIC conversion (failure aborts back to `select` with an error),
then set file/mediaUrl, move to `location` and attempt geolocation. -/
def handleFileSelect (s : ModalState) (selectedFile : JsFile)
    (conv : Outcome HeicResult) (freshUrl : String)
    (geo : Outcome Coordinates) : ModalState :=
  let isImage := selectedIsImage selectedFile
  let isVideo := selectedIsVideo selectedFile
  if !isImage && !isVideo then
    { s with error := some "Please select an image or video file" }
  else if selectedFile.size > 20 * 1024 * 1024 then
    { s with error := some "File must be under 20MB" }
  else
    let s0 := { s with error := none }
    let processed : Option (JsFile × String) :=
      if isHeicFile selectedFile then
        match conv with
        | .failed => none
        | .ok r =>
          match convertHeicToJpeg selectedFile r with
          | none => none
          | some (_, convertedFile) => some (convertedFile, freshUrl)
      else
        some (selectedFile, freshUrl)
    match processed with
    | none =>
      { s0 with
        error := some "Failed to convert HEIC image. Please try a different format."
        step := .select }
    | some (processedFile, processedUrl) =>
      let s1 := { s0 with
        file := some processedFile
        mediaUrl := some processedUrl
        step := .location }
      match geo with
      | .ok pos =>
        { s1 with coordinates := some pos, geoMethod := .auto, geoError := none }
      | .failed =>
        { s1 with
          geoError := some "Could not get your location. Pan the map to set location."
          geoMethod := .manual }

/-- Handler `handleCenterChange` (UploadModal): store the new coordinates; keep
`geoMethod` unchanged when it is `auto` with no outstanding geolocation
error, otherwise set it to `manual`; always clear the geolocation error. -/
def handleCenterChange (s : ModalState) (coords : Coordinates) : ModalState :=
  let s1 := { s with coordinates := some coords }
  let s2 :=
    if s.geoMethod = .auto ∧ s.geoError = none then s1
    else { s1 with geoMethod := .manual }
  { s2 with geoError := none }

/-- Handler `handleAnalyze` (UploadModal): guarded on file and coordinates being
present; moves to `analyzing` and invokes the analysis endpoint (outcome
passed in).  Success stores the result and moves to `review`; failure sets
an error and returns to `location`. -/
def handleAnalyze (s : ModalState) (resp : Outcome AnalyzeResponse) : ModalState :=
  match s.file, s.coordinates with
  | some _, some _ =>
    let s1 := { s with step := .analyzing, isAnalyzing := true, error := none }
    match resp with
    | .ok result =>
      { s1 with analysis := some result, step := .review, isAnalyzing := false }
    | .failed =>
      { s1 with
        error := some "Failed to analyze media. Please try again."
        step := .location
        isAnalyzing := false }
  | _, _ => s

/-- Handler `handleBackFromLocation` (UploadModal): back to `select`, clearing the
file, revoking and clearing the media URL, clearing coordinates and the
geolocation error. -/
def handleBackFromLocation (s : ModalState) : ModalState :=
  { s with
    step := .select
    file := none
    revoked := match s.mediaUrl with
      | some u => s.revoked ++ [u]
      | none => s.revoked
    mediaUrl := none
    coordinates := none
    geoError := none }

/-! ## Server: `GET /api/reports` and `POST /api/reports`

The MongoDB database is modelled as explicit lists of documents.
`ObjectId`s are modelled by a counter `nextId`; MongoDB's `$geoIntersects`
predicate — an opaque external query per the embedding — is a parameter
`geoWithin` of every server operation. -/

/-- A GeoJSON `Point` as stored in a report document:
`coordinates: [lng, lat]` (longitude first). -/
structure GeoPoint where
  lng : Int
  lat : Int
deriving DecidableEq, Repr

/-- An `areas` document: `_id`, polygon boundary (ring of GeoJSON
positions), `isActive` flag. -/
structure Area where
  id : Nat
  polygon : List GeoPoint
  isActive : Bool
deriving DecidableEq, Repr

/-- A report's `routing` subdocument:
`{assignedAreaId, matchedBy, matchedAt}`. -/
structure Routing where
  assignedAreaId : String
  matchedBy : String
  matchedAt : Nat
deriving DecidableEq, Repr

/-- A report's `media` subdocument. -/
structure MediaInfo where
  mediaType : String
  url : String
  fileName : String
  fileSize : Nat
deriving DecidableEq, Repr

/-- A `DbReport` document as built by `POST /api/reports` (without the
`_id`, which the store assigns on insert). -/
structure DbReport where
  createdAt : Nat
  updatedAt : Nat
  location : GeoPoint
  media : MediaInfo
  ai : AnalyzeResponse
  geoMethod : String
  status : String
  routing : Option Routing
deriving DecidableEq, Repr

/-- A persisted report: the document plus the `_id` assigned by the
store. -/
structure StoredReport where
  id : Nat
  doc : DbReport
deriving DecidableEq, Repr

/-- The database: the `areas` and `reports` collections, and the counter
modelling MongoDB's fresh `ObjectId` generation for report inserts. -/
structure Db where
  areas : List Area
  reports : List StoredReport
  nextId : Nat
deriving DecidableEq, Repr

/-- The JSON body of `POST /api/reports`. -/
structure ReportsPost where
  coordinates : Coordinates
  mediaUrl : String
  mediaType : String
  fileName : String
  fileSize : Nat
  analysis : AnalyzeResponse
  geoMethod : String
deriving DecidableEq, Repr

/-- A report in the frontend/API shape, as produced by both route
handlers.  Neither handler copies the `routing` subdocument into its
response object, so an absent `routing` key is `none`. -/
structure ApiReport where
  id : String
  createdAt : Nat
  coordinates : Coordinates
  mediaUrl : String
  mediaType : String
  fileName : String
  fileSize : Nat
  analysis : AnalyzeResponse
  geoMethod : String
  status : String
  routing : Option Routing
deriving DecidableEq, Repr

/-- The opaque `$geoIntersects` geospatial predicate: does the polygon
contain (intersect) the point? -/
def GeoPredicate : Type := List GeoPoint → GeoPoint → Bool

/-- The `findOne` of `POST /api/reports`:
`db.collection('areas').findOne({polygon: {$geoIntersects: {$geometry: loc}}, isActive: true})`
— the first area whose polygon contains the point and whose `isActive`
flag is set. -/
def findMatchingArea (geoWithin : GeoPredicate) (areas : List Area)
    (loc : GeoPoint) : Option Area :=
  areas.find? fun a => geoWithin a.polygon loc && a.isActive

/-- The GeoJSON location `POST /api/reports` stores:
`coordinates: [coordinates.lng, coordinates.lat]`. -/
def bodyLoc (body : ReportsPost) : GeoPoint :=
  { lng := body.coordinates.lng, lat := body.coordinates.lat }

/-- The `DbReport` document that `POST /api/reports` assembles and
inserts: creation timestamps `now`, GeoJSON location `[lng, lat]`, media
and analysis subdocuments from the body, status `"open"`, and a routing
assignment exactly when `findOne` returned a matching active area. -/
def mkDbReport (geoWithin : GeoPredicate) (areas : List Area)
    (body : ReportsPost) (now : Nat) : DbReport :=
  let loc : GeoPoint := bodyLoc body
  let base : DbReport :=
    { createdAt := now
      updatedAt := now
      location := loc
      media :=
        { mediaType := body.mediaType
          url := body.mediaUrl
          fileName := body.fileName
          fileSize := body.fileSize }
      ai := body.analysis
      geoMethod := body.geoMethod
      status := "open"
      routing := none }
  match findMatchingArea geoWithin areas loc with
  | some matchingArea =>
    { base with
      routing := some
        { assignedAreaId := toString matchingArea.id
          matchedBy := "geoWithin"
          matchedAt := now } }
  | none => base

/-- The 201 response body of `POST /api/reports` (`createdReport` in the
source): id from the insert, ISO timestamp, the echoed coordinates and
media fields, the analysis, geo method and status — and no `routing`
key. -/
def mkCreatedResponse (insertedId : Nat) (report : DbReport)
    (body : ReportsPost) : ApiReport where
  id := toString insertedId
  createdAt := report.createdAt
  coordinates := { lat := body.coordinates.lat, lng := body.coordinates.lng }
  mediaUrl := report.media.url
  mediaType := report.media.mediaType
  fileName := report.media.fileName
  fileSize := report.media.fileSize
  analysis := report.ai
  geoMethod := report.geoMethod
  status := report.status
  routing := none

/-- The record as persisted by the `insertOne` of `POST /api/reports`: the
assembled document under the `_id` the store assigns. -/
def newStored (geoWithin : GeoPredicate) (db : Db) (body : ReportsPost)
    (now : Nat) : StoredReport :=
  { id := db.nextId, doc := mkDbReport geoWithin db.areas body now }

/-- Handler for `POST /api/reports`: build the document, look up a containing active
area for routing, insert (the store assigns `_id := nextId`), and answer
201 with the created report in frontend shape.  Returns the new database,
the HTTP status code, and the response body. -/
def postReports (geoWithin : GeoPredicate) (db : Db) (body : ReportsPost)
    (now : Nat) : Db × Nat × ApiReport :=
  let stored := newStored geoWithin db body now
  let db' : Db := { db with reports := db.reports ++ [stored], nextId := db.nextId + 1 }
  (db', 201, mkCreatedResponse db.nextId stored.doc body)

/-- Insert a report into a list kept sorted by `createdAt` descending. -/
def insertByCreatedAtDesc (r : StoredReport) : List StoredReport → List StoredReport
  | [] => [r]
  | x :: xs =>
    if x.doc.createdAt > r.doc.createdAt then x :: insertByCreatedAtDesc r xs
    else r :: x :: xs

/-- The store's ordered retrieval `find({}).sort({createdAt: -1})`:
all documents, sorted by `createdAt` descending. -/
def sortByCreatedAtDesc (l : List StoredReport) : List StoredReport :=
  l.foldr insertByCreatedAtDesc []

/-- The `GET /api/reports` per-document transform to the frontend `Report`
shape: `_id` stringified, `[lng, lat]` swapped back to `{lat, lng}`, media
and analysis fields copied — and no `routing` key. -/
def toApiReport (r : StoredReport) : ApiReport where
  id := toString r.id
  createdAt := r.doc.createdAt
  coordinates := { lat := r.doc.location.lat, lng := r.doc.location.lng }
  mediaUrl := r.doc.media.url
  mediaType := r.doc.media.mediaType
  fileName := r.doc.media.fileName
  fileSize := r.doc.media.fileSize
  analysis := r.doc.ai
  geoMethod := r.doc.geoMethod
  status := r.doc.status
  routing := none

/-- Handler for `GET /api/reports`: every persisted report, sorted by creation time
descending, transformed to the frontend shape. -/
def getReports (db : Db) : List ApiReport :=
  (sortByCreatedAtDesc db.reports).map toApiReport

/-! ## Helper lemmas: strings -/

theorem renamed_not_heic (t : List Char) :
    strEnds (lowerStr (String.mk (t ++ (".jpg" : String).data))) ".heic" = false := by
  show (".heic" : String).data.reverse.isPrefixOf
    ((t ++ (".jpg" : String).data).map Char.toLower).reverse = false
  have h1 : (".heic" : String).data.reverse = ['c', 'i', 'e', 'h', '.'] := rfl
  have h2 : (".jpg" : String).data = ['.', 'j', 'p', 'g'] := rfl
  rw [h1, h2, List.map_append, List.reverse_append]
  simp [List.isPrefixOf]

theorem renamed_not_heif (t : List Char) :
    strEnds (lowerStr (String.mk (t ++ (".jpg" : String).data))) ".heif" = false := by
  show (".heif" : String).data.reverse.isPrefixOf
    ((t ++ (".jpg" : String).data).map Char.toLower).reverse = false
  have h1 : (".heif" : String).data.reverse = ['f', 'i', 'e', 'h', '.'] := rfl
  have h2 : (".jpg" : String).data = ['.', 'j', 'p', 'g'] := rfl
  rw [h1, h2, List.map_append, List.reverse_append]
  simp [List.isPrefixOf]

theorem renamed_ends_jpg (t : List Char) :
    strEnds (String.mk (t ++ (".jpg" : String).data)) ".jpg" = true := by
  show (".jpg" : String).data.reverse.isPrefixOf
    (t ++ (".jpg" : String).data).reverse = true
  have h2 : (".jpg" : String).data = ['.', 'j', 'p', 'g'] := rfl
  rw [h2, List.reverse_append]
  simp [List.isPrefixOf]

/-! ## Helper lemmas: decimal representations of numbers are non-empty -/

theorem toDigitsCore_ne_nil (b fuel n : Nat) (ds : List Char) (h : ds ≠ []) :
    Nat.toDigitsCore b fuel n ds ≠ [] := by
  induction fuel generalizing n ds with
  | zero => simpa [Nat.toDigitsCore] using h
  | succ f ih =>
    simp only [Nat.toDigitsCore]
    split
    · simp
    · exact ih _ _ (by simp)

theorem natRepr_ne_empty (n : Nat) : toString n ≠ "" := by
  show Nat.repr n ≠ ""
  unfold Nat.repr
  intro hcontra
  have hd : (Nat.toDigits 10 n).asString.data = ("" : String).data := by rw [hcontra]
  have hnil : Nat.toDigits 10 n = [] := by simpa [List.asString] using hd
  unfold Nat.toDigits at hnil
  simp only [Nat.toDigitsCore] at hnil
  revert hnil
  split
  · simp
  · exact toDigitsCore_ne_nil _ _ _ _ (by simp)

/-! ## Helper lemmas: the descending sort of the report store -/

theorem insertByCreatedAtDesc_perm (r : StoredReport) (l : List StoredReport) :
    List.Perm (insertByCreatedAtDesc r l) (r :: l) := by
  induction l with
  | nil => simp [insertByCreatedAtDesc]
  | cons x xs ih =>
    simp only [insertByCreatedAtDesc]
    split
    · exact (ih.cons x).trans (List.Perm.swap r x xs)
    · rfl

theorem sortByCreatedAtDesc_perm (l : List StoredReport) :
    List.Perm (sortByCreatedAtDesc l) l := by
  induction l with
  | nil => rfl
  | cons x xs ih => exact (insertByCreatedAtDesc_perm x (xs.foldr insertByCreatedAtDesc [])).trans (ih.cons x)

/-- Sorted by creation time, newest first. -/
def DescByCreatedAt (l : List StoredReport) : Prop :=
  l.Pairwise fun a b => b.doc.createdAt ≤ a.doc.createdAt

theorem insertByCreatedAtDesc_sorted (r : StoredReport) (l : List StoredReport)
    (h : DescByCreatedAt l) : DescByCreatedAt (insertByCreatedAtDesc r l) := by
  induction l with
  | nil => simp [insertByCreatedAtDesc, DescByCreatedAt]
  | cons x xs ih =>
    rcases h with _ | ⟨hx, hxs⟩
    simp only [insertByCreatedAtDesc]
    split
    · refine List.Pairwise.cons ?_ (ih hxs)
      intro y hy
      have hmem : y ∈ r :: xs := (insertByCreatedAtDesc_perm r xs).mem_iff.mp hy
      rcases List.mem_cons.mp hmem with rfl | hmem
      · omega
      · exact hx y hmem
    · refine List.Pairwise.cons ?_ (List.Pairwise.cons hx hxs)
      intro y hy
      rcases List.mem_cons.mp hy with rfl | hmem
      · omega
      · have := hx y hmem
        omega

theorem sortByCreatedAtDesc_sorted (l : List StoredReport) :
    DescByCreatedAt (sortByCreatedAtDesc l) := by
  induction l with
  | nil => simp [sortByCreatedAtDesc, DescByCreatedAt]
  | cons x xs ih => exact insertByCreatedAtDesc_sorted x (xs.foldr insertByCreatedAtDesc []) ih

/-- In a list sorted by creation time descending that is a permutation of
`l ++ [r]` where `r` is strictly newer than everything in `l`, `r` comes
first. -/
theorem head?_of_strict_newest (m l : List StoredReport) (r : StoredReport)
    (hperm : List.Perm m (l ++ [r]))
    (hmax : ∀ x ∈ l, x.doc.createdAt < r.doc.createdAt)
    (hs : DescByCreatedAt m) : m.head? = some r := by
  cases m with
  | nil =>
    have := hperm.length_eq
    simp at this
  | cons h t =>
    have hhm : h ∈ l ++ [r] := hperm.mem_iff.mp (List.mem_cons_self h t)
    have hrm : r ∈ h :: t := hperm.mem_iff.mpr (by simp)
    rcases List.mem_append.mp hhm with hl | hr
    · have hk : h.doc.createdAt < r.doc.createdAt := hmax h hl
      rcases List.mem_cons.mp hrm with rfl | hrt
      · omega
      · rcases hs with _ | ⟨hh, _⟩
        have := hh r hrt
        omega
    · simp at hr
      simp [hr]

/-! ## Claims about the client state machine -/

/-- C10: invoking Back from the location step returns the machine to the
`select` step, clears the selected file, revokes and clears the media URL
handle, and clears coordinates and the geolocation warning, while leaving
the geo method, any stored analysis result, and the general error message
unchanged. -/
theorem back_from_location_frame (s : ModalState) :
    (handleBackFromLocation s).step = UploadStep.select ∧
    (handleBackFromLocation s).file = none ∧
    (handleBackFromLocation s).mediaUrl = none ∧
    (handleBackFromLocation s).coordinates = none ∧
    (handleBackFromLocation s).geoError = none ∧
    (handleBackFromLocation s).geoMethod = s.geoMethod ∧
    (handleBackFromLocation s).analysis = s.analysis ∧
    (handleBackFromLocation s).error = s.error ∧
    (handleBackFromLocation s).isAnalyzing = s.isAnalyzing ∧
    (∀ u, s.mediaUrl = some u → (handleBackFromLocation s).revoked = s.revoked ++ [u]) ∧
    (s.mediaUrl = none → (handleBackFromLocation s).revoked = s.revoked) := by
  unfold handleBackFromLocation
  refine ⟨rfl, rfl, rfl, rfl, rfl, rfl, rfl, rfl, rfl, ?_, ?_⟩
  · intro u hu
    simp [hu]
  · intro hn
    simp [hn]

theorem back_from_location_frame_witness :
    (handleBackFromLocation { initialModalState with
        step := .location, mediaUrl := some "blob:a", coordinates := some ⟨43, -79⟩,
        error := some "e" }).revoked = [] ++ ["blob:a"] ∧
    (handleBackFromLocation { initialModalState with
        step := .location, mediaUrl := some "blob:a", coordinates := some ⟨43, -79⟩,
        error := some "e" }).step = UploadStep.select ∧
    (handleBackFromLocation { initialModalState with
        step := .location, mediaUrl := some "blob:a", coordinates := some ⟨43, -79⟩,
        error := some "e" }).error = some "e" := by
  have h := back_from_location_frame { initialModalState with
    step := .location, mediaUrl := some "blob:a", coordinates := some ⟨43, -79⟩,
    error := some "e" }
  exact ⟨h.2.2.2.2.2.2.2.2.2.1 "blob:a" rfl, h.1, by rw [h.2.2.2.2.2.2.2.1]⟩

/-- C6: when the analysis invocation fails (network error or non-2xx
response), the machine lands back on the `location` step with an error
message, and the draft's file, media URL, coordinates and stored analysis
are exactly as they were before the invocation. -/
theorem analyze_failure_preserves_inputs (s : ModalState)
    (hf : s.file.isSome = true) (hc : s.coordinates.isSome = true) :
    (handleAnalyze s .failed).step = UploadStep.location ∧
    (handleAnalyze s .failed).error = some "Failed to analyze media. Please try again." ∧
    (handleAnalyze s .failed).file = s.file ∧
    (handleAnalyze s .failed).mediaUrl = s.mediaUrl ∧
    (handleAnalyze s .failed).coordinates = s.coordinates ∧
    (handleAnalyze s .failed).analysis = s.analysis ∧
    (handleAnalyze s .failed).geoMethod = s.geoMethod ∧
    (handleAnalyze s .failed).isAnalyzing = false := by
  rcases hfile : s.file with _ | f
  · rw [hfile] at hf
    simp at hf
  rcases hcoord : s.coordinates with _ | c
  · rw [hcoord] at hc
    simp at hc
  simp [handleAnalyze, hfile, hcoord]

theorem analyze_failure_preserves_inputs_witness :
    (handleAnalyze { initialModalState with
        step := .location, file := some ⟨"a.jpg", "image/jpeg", 9⟩,
        mediaUrl := some "blob:a", coordinates := some ⟨43, -79⟩ } .failed).step
      = UploadStep.location ∧
    (handleAnalyze { initialModalState with
        step := .location, file := some ⟨"a.jpg", "image/jpeg", 9⟩,
        mediaUrl := some "blob:a", coordinates := some ⟨43, -79⟩ } .failed).coordinates
      = some ⟨43, -79⟩ := by
  have h := analyze_failure_preserves_inputs { initialModalState with
    step := .location, file := some ⟨"a.jpg", "image/jpeg", 9⟩,
    mediaUrl := some "blob:a", coordinates := some ⟨43, -79⟩ } rfl rfl
  exact ⟨h.1, h.2.2.2.2.1⟩

/-- C8: a selected file that is neither image nor video, or whose byte
size exceeds the 20 MiB maximum, is rejected with an error message and no
state transition occurs — step, draft file, media URL, coordinates,
analysis, geo method and the revocation trace are all unchanged. -/
theorem file_select_rejects_invalid (s : ModalState) (f : JsFile)
    (conv : Outcome HeicResult) (u : String) (geo : Outcome Coordinates)
    (h : (selectedIsImage f = false ∧ selectedIsVideo f = false) ∨
      f.size > 20 * 1024 * 1024) :
    (handleFileSelect s f conv u geo).step = s.step ∧
    (handleFileSelect s f conv u geo).file = s.file ∧
    (handleFileSelect s f conv u geo).mediaUrl = s.mediaUrl ∧
    (handleFileSelect s f conv u geo).coordinates = s.coordinates ∧
    (handleFileSelect s f conv u geo).analysis = s.analysis ∧
    (handleFileSelect s f conv u geo).geoMethod = s.geoMethod ∧
    (handleFileSelect s f conv u geo).revoked = s.revoked ∧
    ∃ msg, (handleFileSelect s f conv u geo).error = some msg := by
  rcases h with ⟨hi, hv⟩ | hsize
  · simp [handleFileSelect, hi, hv]
  · cases hb : (!selectedIsImage f && !selectedIsVideo f)
    · simp [handleFileSelect, hb, hsize]
    · simp [handleFileSelect, hb]

theorem file_select_rejects_invalid_witness :
    (handleFileSelect initialModalState ⟨"big.jpg", "image/jpeg", 26214400⟩
        .failed "blob:x" .failed).step = UploadStep.select ∧
    (handleFileSelect initialModalState ⟨"big.jpg", "image/jpeg", 26214400⟩
        .failed "blob:x" .failed).file = none ∧
    ∃ msg, (handleFileSelect initialModalState ⟨"big.jpg", "image/jpeg", 26214400⟩
        .failed "blob:x" .failed).error = some msg := by
  have h := file_select_rejects_invalid initialModalState
    ⟨"big.jpg", "image/jpeg", 26214400⟩ .failed "blob:x" .failed
    (Or.inr (by decide))
  exact ⟨h.1, h.2.1, h.2.2.2.2.2.2.2⟩

/-- C2, evaluated at the failing input: after an error-free automatic fix
(`geoMethod = auto`, no geolocation error, reached through
`handleFileSelect` itself), the initial programmatic reposition keeps
`geoMethod = auto` — but so does the subsequent reposition to different
coordinates, which the claim requires to flip the method to `manual`.  The
`auto && no-error` guard of `handleCenterChange` cannot tell the first
programmatic event from any later manual one. -/
theorem center_change_never_flips_after_fix :
    (handleFileSelect initialModalState ⟨"a.jpg", "image/jpeg", 100⟩
        .failed "blob:1" (.ok ⟨43, -79⟩)).geoMethod = GeoMethod.auto ∧
    (handleFileSelect initialModalState ⟨"a.jpg", "image/jpeg", 100⟩
        .failed "blob:1" (.ok ⟨43, -79⟩)).geoError = none ∧
    (handleFileSelect initialModalState ⟨"a.jpg", "image/jpeg", 100⟩
        .failed "blob:1" (.ok ⟨43, -79⟩)).step = UploadStep.location ∧
    (handleCenterChange
      (handleCenterChange
        (handleFileSelect initialModalState ⟨"a.jpg", "image/jpeg", 100⟩
          .failed "blob:1" (.ok ⟨43, -79⟩))
        ⟨43, -79⟩)
      ⟨44, -80⟩).geoMethod = GeoMethod.auto := by
  refine ⟨?_, ?_, ?_, ?_⟩ <;> decide

/-- C5, evaluated at the failing input: with a media asset already held
(`mediaUrl = "blob:old"`, coordinates set — the state `handleFileSelect`
itself produces), an accepted new selection overwrites the media URL
without ever revoking the superseded handle (the revocation trace stays
empty), and, when geolocation fails on the new attempt, the previous
draft's coordinates survive instead of being reset. -/
theorem file_select_leaks_prior_handle :
    (handleFileSelect initialModalState ⟨"a.jpg", "image/jpeg", 100⟩
        .failed "blob:old" (.ok ⟨43, -79⟩)).mediaUrl = some "blob:old" ∧
    (handleFileSelect
        (handleFileSelect initialModalState ⟨"a.jpg", "image/jpeg", 100⟩
          .failed "blob:old" (.ok ⟨43, -79⟩))
        ⟨"b.png", "image/png", 200⟩ .failed "blob:new" .failed).mediaUrl
      = some "blob:new" ∧
    (handleFileSelect
        (handleFileSelect initialModalState ⟨"a.jpg", "image/jpeg", 100⟩
          .failed "blob:old" (.ok ⟨43, -79⟩))
        ⟨"b.png", "image/png", 200⟩ .failed "blob:new" .failed).revoked = [] ∧
    (handleFileSelect
        (handleFileSelect initialModalState ⟨"a.jpg", "image/jpeg", 100⟩
          .failed "blob:old" (.ok ⟨43, -79⟩))
        ⟨"b.png", "image/png", 200⟩ .failed "blob:new" .failed).coordinates
      = some ⟨43, -79⟩ := by
  refine ⟨?_, ?_, ?_, ?_⟩ <;> decide

/-! ## Claims about media normalization -/

/-- C7, counterexample: a file classified as HEIC by its declared content
type alone (`image/heic`) while its name is `photo.png` normalizes to a
file still named `photo.png` — the name does not end in `.jpg`, against
the claim that the normalized file is renamed to end in `.jpg`. -/
theorem convert_heic_rename_counterexample :
    isHeicFile ⟨"photo.png", "image/heic", 5⟩ = true ∧
    convertHeicToJpeg ⟨"photo.png", "image/heic", 5⟩ (.single ⟨1, 5⟩)
      = some (⟨1, 5⟩, ⟨"photo.png", "image/jpeg", 5⟩) ∧
    strEnds ("photo.png" : String) ".jpg" = false := by
  refine ⟨?_, ?_, ?_⟩ <;> decide

/-- C7, amended: for every file classified as proprietary-format (by
extension or content type, either sufficing), successful normalization
yields a file whose content type is `image/jpeg` and which is no longer
classified as proprietary (in particular its name no longer ends with the
proprietary extension); when the original name did end with the
proprietary extension it is renamed to end in `.jpg`; and the output is
built from the first element when the converter returns a collection. -/
theorem convert_heic_normalizes (f : JsFile) (r : HeicResult)
    (hheic : isHeicFile f = true) (b : Blob) (jf : JsFile)
    (hconv : convertHeicToJpeg f r = some (b, jf)) :
    jf.mimeType = "image/jpeg" ∧
    isHeicFile jf = false ∧
    (strEnds (lowerStr f.name) ".heic" = true ∨ strEnds (lowerStr f.name) ".heif" = true →
      strEnds jf.name ".jpg" = true) ∧
    (∀ bs, r = HeicResult.multiple bs → bs.head? = some b) := by
  unfold convertHeicToJpeg at hconv
  rcases hblob : heicResultBlob r with _ | a
  · rw [hblob] at hconv
    simp at hconv
  rw [hblob] at hconv
  simp only [Option.map_some', Option.some.injEq, Prod.mk.injEq] at hconv
  obtain ⟨rfl, hjf⟩ := hconv
  subst hjf
  refine ⟨rfl, ?_, ?_, ?_⟩
  · cases hcond : (strEnds (lowerStr f.name) ".heic" || strEnds (lowerStr f.name) ".heif") with
    | false =>
      have hkeep : replaceHeicExt f.name = f.name := by
        unfold replaceHeicExt
        rw [if_neg]
        simp [hcond]
      rcases Bool.or_eq_false_iff.mp hcond with ⟨h1, h2⟩
      simp [strEnds, lowerStr] at h1 h2
      simp [isHeicFile, hkeep, lowerStr, strEnds, h1, h2]
    | true =>
      have hren : replaceHeicExt f.name =
          String.mk (f.name.data.take (f.name.data.length - 5) ++ (".jpg" : String).data) := by
        unfold replaceHeicExt
        rw [if_pos]
        simp [hcond]
      have g1 := renamed_not_heic (f.name.data.take (f.name.data.length - 5))
      have g2 := renamed_not_heif (f.name.data.take (f.name.data.length - 5))
      simp only [strEnds, lowerStr] at g1 g2
      simp [isHeicFile, hren, lowerStr, strEnds] at g1 g2 ⊢
      exact ⟨g1, g2⟩
  · intro hdisj
    have hcond : (strEnds (lowerStr f.name) ".heic" || strEnds (lowerStr f.name) ".heif") = true := by
      rcases hdisj with h | h <;> simp [h]
    have hren : replaceHeicExt f.name =
        String.mk (f.name.data.take (f.name.data.length - 5) ++ (".jpg" : String).data) := by
      unfold replaceHeicExt
      rw [if_pos]
      simp [hcond]
    rw [hren]
    exact renamed_ends_jpg _
  · intro bs hbs
    subst hbs
    exact hblob

theorem convert_heic_normalizes_witness :
    isHeicFile ⟨"IMG.HEIC", "image/heic", 7⟩ = true ∧
    (⟨"IMG.jpg", "image/jpeg", 7⟩ : JsFile).mimeType = "image/jpeg" ∧
    isHeicFile ⟨"IMG.jpg", "image/jpeg", 7⟩ = false ∧
    strEnds ("IMG.jpg" : String) ".jpg" = true ∧
    ([⟨2, 7⟩, ⟨3, 8⟩] : List Blob).head? = some ⟨2, 7⟩ := by
  have h := convert_heic_normalizes ⟨"IMG.HEIC", "image/heic", 7⟩
    (.multiple [⟨2, 7⟩, ⟨3, 8⟩]) (by decide) ⟨2, 7⟩ ⟨"IMG.jpg", "image/jpeg", 7⟩ (by decide)
  exact ⟨by decide, h.1, h.2.1, h.2.2.1 (Or.inl (by decide)), h.2.2.2 _ rfl⟩

/-! ## Helper lemmas: the document assembled by `POST /api/reports` -/

theorem mkDbReport_routing (geoWithin : GeoPredicate) (areas : List Area)
    (body : ReportsPost) (now : Nat) :
    (mkDbReport geoWithin areas body now).routing =
      (findMatchingArea geoWithin areas (bodyLoc body)).map
        fun a => { assignedAreaId := toString a.id, matchedBy := "geoWithin", matchedAt := now } := by
  unfold mkDbReport
  cases hfind : findMatchingArea geoWithin areas (bodyLoc body) <;> simp [hfind]

theorem mkDbReport_base_fields (geoWithin : GeoPredicate) (areas : List Area)
    (body : ReportsPost) (now : Nat) :
    (mkDbReport geoWithin areas body now).createdAt = now ∧
    (mkDbReport geoWithin areas body now).status = "open" ∧
    (mkDbReport geoWithin areas body now).media =
      ⟨body.mediaType, body.mediaUrl, body.fileName, body.fileSize⟩ ∧
    (mkDbReport geoWithin areas body now).ai = body.analysis ∧
    (mkDbReport geoWithin areas body now).geoMethod = body.geoMethod ∧
    (mkDbReport geoWithin areas body now).location = bodyLoc body := by
  unfold mkDbReport
  cases hfind : findMatchingArea geoWithin areas (bodyLoc body) <;> simp [hfind]

/-! ## Claims about the server routes -/

/-- C1: every report created via `POST /api/reports` is persisted and
answered 201; its routing assignment is present exactly when some active
area's polygon contains the point, and a present assignment names a
containing active area with match basis `"geoWithin"` and the creation
timestamp as match timestamp.  When no active area contains the point the
report is persisted with no routing assignment and creation still
succeeds. -/
theorem post_reports_routing (geoWithin : GeoPredicate) (db : Db)
    (body : ReportsPost) (now : Nat) :
    (postReports geoWithin db body now).2.1 = 201 ∧
    (postReports geoWithin db body now).1.reports
      = db.reports ++ [newStored geoWithin db body now] ∧
    ((∃ a ∈ db.areas, a.isActive = true ∧ geoWithin a.polygon (bodyLoc body) = true) ↔
      (newStored geoWithin db body now).doc.routing.isSome = true) ∧
    (∀ ra, (newStored geoWithin db body now).doc.routing = some ra →
      ra.matchedBy = "geoWithin" ∧ ra.matchedAt = now ∧
      ∃ a ∈ db.areas, a.isActive = true ∧ geoWithin a.polygon (bodyLoc body) = true ∧
        ra.assignedAreaId = toString a.id) := by
  refine ⟨rfl, rfl, ?_, ?_⟩
  · show _ ↔ (mkDbReport geoWithin db.areas body now).routing.isSome = true
    rw [mkDbReport_routing]
    constructor
    · rintro ⟨a, ha, hact, hgeo⟩
      have : (findMatchingArea geoWithin db.areas (bodyLoc body)).isSome = true := by
        unfold findMatchingArea
        rw [List.find?_isSome]
        exact ⟨a, ha, by simp [hgeo, hact]⟩
      rcases hfind : findMatchingArea geoWithin db.areas (bodyLoc body) with _ | m
      · rw [hfind] at this
        simp at this
      · simp [hfind]
    · intro hsome
      rcases hfind : findMatchingArea geoWithin db.areas (bodyLoc body) with _ | m
      · rw [hfind] at hsome
        simp at hsome
      · have hp := List.find?_some hfind
        have hm := List.mem_of_find?_eq_some hfind
        rw [Bool.and_eq_true] at hp
        exact ⟨m, hm, hp.2, hp.1⟩
  · intro ra hra
    rw [show (newStored geoWithin db body now).doc.routing
        = (mkDbReport geoWithin db.areas body now).routing from rfl,
      mkDbReport_routing] at hra
    rcases hfind : findMatchingArea geoWithin db.areas (bodyLoc body) with _ | m
    · rw [hfind] at hra
      simp at hra
    · rw [hfind] at hra
      simp only [Option.map_some', Option.some.injEq] at hra
      have hp := List.find?_some hfind
      have hm := List.mem_of_find?_eq_some hfind
      rw [Bool.and_eq_true] at hp
      subst hra
      exact ⟨rfl, rfl, m, hm, hp.2, hp.1, rfl⟩

theorem post_reports_routing_witness :
    ((postReports (fun _ _ => true) ⟨[⟨7, [], true⟩], [], 0⟩
        ⟨⟨1, 2⟩, "u", "image", "f.jpg", 3, ⟨"c", "low", "s", 1⟩, "auto"⟩ 3).2.1 = 201) ∧
    (newStored (fun _ _ => true) ⟨[⟨7, [], true⟩], [], 0⟩
        ⟨⟨1, 2⟩, "u", "image", "f.jpg", 3, ⟨"c", "low", "s", 1⟩, "auto"⟩ 3).doc.routing
      = some ⟨"7", "geoWithin", 3⟩ ∧
    (∃ a ∈ ([⟨7, [], true⟩] : List Area), a.isActive = true ∧
      (fun (_ : List GeoPoint) (_ : GeoPoint) => true) a.polygon
        (bodyLoc ⟨⟨1, 2⟩, "u", "image", "f.jpg", 3, ⟨"c", "low", "s", 1⟩, "auto"⟩) = true ∧
      ("7" : String) = toString a.id) := by
  have h := post_reports_routing (fun _ _ => true) ⟨[⟨7, [], true⟩], [], 0⟩
    ⟨⟨1, 2⟩, "u", "image", "f.jpg", 3, ⟨"c", "low", "s", 1⟩, "auto"⟩ 3
  have h4 := h.2.2.2 ⟨"7", "geoWithin", 3⟩ (by decide)
  exact ⟨h.1, by decide, h4.2.2⟩

/-- C9: every report created via `POST /api/reports` is persisted with
status `"open"` and a freshly assigned id distinct from every previously
assigned id, the stringified id in the response is non-empty, and the
response status code is 201.  The store's freshness invariant (every
persisted id is below the id counter) is preserved. -/
theorem post_reports_open_fresh (geoWithin : GeoPredicate) (db : Db)
    (body : ReportsPost) (now : Nat)
    (hIds : ∀ r ∈ db.reports, r.id < db.nextId) :
    (postReports geoWithin db body now).2.1 = 201 ∧
    (newStored geoWithin db body now).doc.status = "open" ∧
    (postReports geoWithin db body now).2.2.status = "open" ∧
    (postReports geoWithin db body now).2.2.id
      = toString (newStored geoWithin db body now).id ∧
    (postReports geoWithin db body now).2.2.id ≠ "" ∧
    (∀ r ∈ db.reports, r.id ≠ (newStored geoWithin db body now).id) ∧
    (∀ r ∈ (postReports geoWithin db body now).1.reports,
      r.id < (postReports geoWithin db body now).1.nextId) := by
  have hstatus : (mkDbReport geoWithin db.areas body now).status = "open" :=
    (mkDbReport_base_fields geoWithin db.areas body now).2.1
  refine ⟨rfl, hstatus, hstatus, rfl, natRepr_ne_empty db.nextId, ?_, ?_⟩
  · intro r hr
    have := hIds r hr
    show r.id ≠ db.nextId
    omega
  · intro r hr
    rcases List.mem_append.mp hr with hold | hnew
    · have := hIds r hold
      show r.id < db.nextId + 1
      omega
    · rcases List.mem_singleton.mp hnew with rfl
      show db.nextId < db.nextId + 1
      omega

theorem post_reports_open_fresh_witness :
    (postReports (fun _ _ => true) ⟨[], [⟨0, ⟨1, 1, ⟨4, 2⟩, ⟨"image", "u", "f", 3⟩,
        ⟨"c", "low", "s", 1⟩, "auto", "open", none⟩⟩], 1⟩
      ⟨⟨1, 2⟩, "u", "image", "f.jpg", 3, ⟨"c", "low", "s", 1⟩, "auto"⟩ 9).2.1 = 201 ∧
    (postReports (fun _ _ => true) ⟨[], [⟨0, ⟨1, 1, ⟨4, 2⟩, ⟨"image", "u", "f", 3⟩,
        ⟨"c", "low", "s", 1⟩, "auto", "open", none⟩⟩], 1⟩
      ⟨⟨1, 2⟩, "u", "image", "f.jpg", 3, ⟨"c", "low", "s", 1⟩, "auto"⟩ 9).2.2.id ≠ "" ∧
    (newStored (fun _ _ => true) ⟨[], [⟨0, ⟨1, 1, ⟨4, 2⟩, ⟨"image", "u", "f", 3⟩,
        ⟨"c", "low", "s", 1⟩, "auto", "open", none⟩⟩], 1⟩
      ⟨⟨1, 2⟩, "u", "image", "f.jpg", 3, ⟨"c", "low", "s", 1⟩, "auto"⟩ 9).doc.status
      = "open" := by
  have h := post_reports_open_fresh (fun _ _ => true)
    ⟨[], [⟨0, ⟨1, 1, ⟨4, 2⟩, ⟨"image", "u", "f", 3⟩,
      ⟨"c", "low", "s", 1⟩, "auto", "open", none⟩⟩], 1⟩
    ⟨⟨1, 2⟩, "u", "image", "f.jpg", 3, ⟨"c", "low", "s", 1⟩, "auto"⟩ 9
    (by decide)
  exact ⟨h.1, h.2.2.2.2.1, h.2.1⟩

/-- C3: `GET /api/reports` returns all persisted reports (a permutation of
the store's contents) sorted by creation time descending, and after any
`POST /api/reports` whose creation time is newer than every persisted
report (the clock moves forward, for any interleaving of creates), the
newly created report is the first element of the listing. -/
theorem get_reports_sorted_newest_first (geoWithin : GeoPredicate) (db : Db)
    (body : ReportsPost) (now : Nat)
    (hclock : ∀ r ∈ db.reports, r.doc.createdAt < now) :
    List.Perm (getReports db) (db.reports.map toApiReport) ∧
    (getReports db).Pairwise (fun a b => b.createdAt ≤ a.createdAt) ∧
    (getReports (postReports geoWithin db body now).1).head?
      = some (toApiReport (newStored geoWithin db body now)) := by
  refine ⟨?_, ?_, ?_⟩
  · exact (sortByCreatedAtDesc_perm db.reports).map toApiReport
  · rw [getReports, List.pairwise_map]
    exact sortByCreatedAtDesc_sorted db.reports
  · show ((sortByCreatedAtDesc (db.reports ++ [newStored geoWithin db body now])).map
      toApiReport).head? = _
    rw [List.head?_map]
    have hmax : ∀ x ∈ db.reports,
        x.doc.createdAt < (newStored geoWithin db body now).doc.createdAt := by
      intro x hx
      have hc : (newStored geoWithin db body now).doc.createdAt = now :=
        (mkDbReport_base_fields geoWithin db.areas body now).1
      rw [hc]
      exact hclock x hx
    rw [head?_of_strict_newest
      (sortByCreatedAtDesc (db.reports ++ [newStored geoWithin db body now]))
      db.reports (newStored geoWithin db body now)
      (sortByCreatedAtDesc_perm _) hmax (sortByCreatedAtDesc_sorted _)]
    rfl

theorem get_reports_sorted_newest_first_witness :
    (getReports (postReports (fun _ _ => true)
        ⟨[], [⟨0, ⟨1, 1, ⟨4, 2⟩, ⟨"image", "u", "f", 3⟩,
          ⟨"c", "low", "s", 1⟩, "auto", "open", none⟩⟩], 1⟩
        ⟨⟨1, 2⟩, "u2", "image", "g.jpg", 3, ⟨"c", "low", "s", 1⟩, "manual"⟩ 9).1).head?
      = some (toApiReport (newStored (fun _ _ => true)
        ⟨[], [⟨0, ⟨1, 1, ⟨4, 2⟩, ⟨"image", "u", "f", 3⟩,
          ⟨"c", "low", "s", 1⟩, "auto", "open", none⟩⟩], 1⟩
        ⟨⟨1, 2⟩, "u2", "image", "g.jpg", 3, ⟨"c", "low", "s", 1⟩, "manual"⟩ 9)) := by
  have h := get_reports_sorted_newest_first (fun _ _ => true)
    ⟨[], [⟨0, ⟨1, 1, ⟨4, 2⟩, ⟨"image", "u", "f", 3⟩,
      ⟨"c", "low", "s", 1⟩, "auto", "open", none⟩⟩], 1⟩
    ⟨⟨1, 2⟩, "u2", "image", "g.jpg", 3, ⟨"c", "low", "s", 1⟩, "manual"⟩ 9
    (by decide)
  exact h.2.2

/-- C4, counterexample: at a store with a single active area whose polygon
contains the posted point (the containment predicate holds), the persisted
report carries a routing assignment, yet the 201 response body carries
none — the response never includes the routing assignment, against the
claim that it is present exactly when a containing active area was
matched. -/
theorem post_response_omits_routing_counterexample :
    (newStored (fun _ _ => true) ⟨[⟨5, [], true⟩], [], 0⟩
        ⟨⟨1, 2⟩, "u", "image", "f.jpg", 3, ⟨"c", "low", "s", 1⟩, "auto"⟩ 2).doc.routing
      = some ⟨"5", "geoWithin", 2⟩ ∧
    (postReports (fun _ _ => true) ⟨[⟨5, [], true⟩], [], 0⟩
        ⟨⟨1, 2⟩, "u", "image", "f.jpg", 3, ⟨"c", "low", "s", 1⟩, "auto"⟩ 2).2.2.routing
      = none := by
  exact ⟨by decide, by decide⟩

/-- C4, amended: the 201 response body of a successful `POST /api/reports`
is the created report with the generated id and the creation timestamp and
the submitted fields echoed back, with status `"open"` — but it never
includes the routing assignment, even when one was computed and
persisted. -/
theorem post_response_fields (geoWithin : GeoPredicate) (db : Db)
    (body : ReportsPost) (now : Nat) :
    (postReports geoWithin db body now).2.1 = 201 ∧
    (postReports geoWithin db body now).2.2.id = toString db.nextId ∧
    (postReports geoWithin db body now).2.2.createdAt = now ∧
    (postReports geoWithin db body now).2.2.coordinates = body.coordinates ∧
    (postReports geoWithin db body now).2.2.mediaUrl = body.mediaUrl ∧
    (postReports geoWithin db body now).2.2.mediaType = body.mediaType ∧
    (postReports geoWithin db body now).2.2.fileName = body.fileName ∧
    (postReports geoWithin db body now).2.2.fileSize = body.fileSize ∧
    (postReports geoWithin db body now).2.2.analysis = body.analysis ∧
    (postReports geoWithin db body now).2.2.geoMethod = body.geoMethod ∧
    (postReports geoWithin db body now).2.2.status = "open" ∧
    (postReports geoWithin db body now).2.2.routing = none := by
  have hb := mkDbReport_base_fields geoWithin db.areas body now
  have hmedia := hb.2.2.1
  refine ⟨rfl, rfl, hb.1, rfl, ?_, ?_, ?_, ?_, hb.2.2.2.1, hb.2.2.2.2.1, hb.2.1, rfl⟩
  · show (mkDbReport geoWithin db.areas body now).media.url = body.mediaUrl
    rw [hmedia]
  · show (mkDbReport geoWithin db.areas body now).media.mediaType = body.mediaType
    rw [hmedia]
  · show (mkDbReport geoWithin db.areas body now).media.fileName = body.fileName
    rw [hmedia]
  · show (mkDbReport geoWithin db.areas body now).media.fileSize = body.fileSize
    rw [hmedia]

end Intake
